import Mathlib

/-!
# Verification of the `bod` directory-tab browser and launcher

Shallow embedding of `src/main.rs`: the application state (`App`), the
directory-entry model (`DirEntry`), path resolution (`expand_home`), the
directory lister (`update_current_dir_contents` with its comparator
`cmpEntry`), tab switching (`switch_tab`), startup (`App.new`), and the
key-event handler of the main loop (`handleKey`), together with an event-trace
runner (`runEvents`).

The filesystem is a parameter `Fs : String → Option (List DirEntry)` mapping a
directory path to its immediate entries (`none` models a failing
`fs::read_dir`).  The user's home directory is a parameter `Option String`
(`dirs::home_dir()`).  I/O failures are modelled by `Except Unit`.  Spawned
child processes are collected as an explicit output list of `SpawnedCmd`.
-/

/-- An entry of a directory listing: base name and kind
(`struct DirEntry { name: String, is_dir: bool }` in the source). -/
structure DirEntry where
  name : String
  is_dir : Bool
deriving DecidableEq, Repr

/-- The application state (`struct App` in the source). -/
structure App where
  tabs : List String
  current_tab : Nat
  show_content : Bool
  show_editor_selection : Bool
  selected_editor : Nat
  current_dir_contents : List DirEntry
  selected_item : Option Nat
  show_confirmation : Bool
deriving DecidableEq, Repr

/-- One spawned external process: program name and argument list. -/
structure SpawnedCmd where
  program : String
  args : List String
deriving DecidableEq, Repr

/-- Result of handling one key event: the new state, the processes spawned
while handling it, and whether the event loop is to terminate (`break`). -/
structure StepResult where
  app : App
  spawned : List SpawnedCmd
  quit : Bool
deriving DecidableEq, Repr

/-- The key events the handler distinguishes; `other` stands for every key
covered by the source's final wildcard arm. -/
inductive KeyCode where
  | char (c : Char)
  | up
  | down
  | enter
  | esc
  | other
deriving DecidableEq, Repr

/-- The filesystem collaborator: maps a directory path to its immediate
entries, or `none` when reading that directory fails. -/
abbrev Fs := String → Option (List DirEntry)

/-- The hard-coded base path literal `"~/Documents/rakesh/projects"`. -/
def basePathRaw : String := "~/Documents/rakesh/projects"

/-- `Path::join` with a relative component: appends a separator and the
component (tab and entry names are plain base names, never absolute). -/
def pathJoin (a b : String) : String := a ++ "/" ++ b

/-- Does the character list begin with `'~'` followed by `'/'`?  Models
`path_str.starts_with("~/")` on the path's text. -/
def startsWithTildeSlash : List Char → Bool
  | '~' :: '/' :: _ => true
  | _ => false

/-- `PathExt::expand_home` (main.rs lines 116-125): when the path begins with
`"~/"` and the home directory is available, return the home directory joined
with the remainder after the two-character prefix (`&path_str[2..]`, both
prefix characters being one byte, is `p.data.drop 2`); otherwise return the
path unchanged.  Every return point of the source is `Ok`.  (`self.to_str()`
always succeeds here since paths are modelled as strings.) -/
def expand_home (home : Option String) (p : String) : Except Unit String :=
  if startsWithTildeSlash p.data then
    match home with
    | some h => .ok (pathJoin h (String.mk (p.data.drop 2)))
    | none => .ok p
  else .ok p

/-- `c.to_digit(10)` of the source: `some` of the digit value for `'0'`-`'9'`,
otherwise `none`. -/
def toDigit10 (c : Char) : Option Nat :=
  if '0' ≤ c ∧ c ≤ '9' then some (c.toNat - 48) else none

/-- The character of a single decimal digit `n ≤ 9`. -/
def digitChar (n : Nat) : Char := Char.ofNat (48 + n)

/-- The comparator passed to `contents.sort_by` (main.rs lines 89-95):
directories order before files; two entries of the same kind compare by
`a.name.cmp(&b.name)`, i.e. case-sensitive lexicographic order, written here
with the lexicographic `<`/`=` on `String`. -/
def cmpEntry (a b : DirEntry) : Ordering :=
  match a.is_dir, b.is_dir with
  | true, false => .lt
  | false, true => .gt
  | _, _ => if a.name < b.name then .lt else if a.name = b.name then .eq else .gt

/-- The non-strict order induced by the comparator: `a` may stay before `b`. -/
def entryLE (a b : DirEntry) : Prop := cmpEntry a b ≠ Ordering.gt

instance : DecidableRel entryLE := fun a b => by
  unfold entryLE; infer_instance

/-- `Vec::sort_by` with `cmpEntry` is a stable comparison sort; it is modelled
by the stable insertion sort over the induced order. -/
def sortContents (l : List DirEntry) : List DirEntry := List.insertionSort entryLE l

/-- `App::update_current_dir_contents` (main.rs lines 70-99): when there are
tabs, read the active project's directory (base path expanded at this access,
joined with `self.tabs[self.current_tab]`), sort the entries, and only then
install the new list; a read failure propagates and installs nothing.
(The source indexes `self.tabs[self.current_tab]`, which panics out of range;
`getD` is used here, every caller keeping `current_tab` in range.  Per-entry
`file_type` results are part of the `Fs` snapshot.) -/
def update_current_dir_contents (home : Option String) (fs : Fs) (app : App) :
    Except Unit App :=
  if app.tabs.isEmpty then .ok app
  else
    match expand_home home basePathRaw with
    | .error e => .error e
    | .ok base_path =>
      match fs (pathJoin base_path (app.tabs.getD app.current_tab "")) with
      | none => .error ()
      | some entries => .ok { app with current_dir_contents := sortContents entries }

/-- `App::switch_tab` (main.rs lines 101-108): in range, set the current tab,
clear the selection, refresh the listing (propagating its failure); out of
range, do nothing. -/
def switch_tab (home : Option String) (fs : Fs) (app : App) (tab_index : Nat) :
    Except Unit App :=
  if tab_index < app.tabs.length then
    update_current_dir_contents home fs
      { app with current_tab := tab_index, selected_item := none }
  else .ok app

/-- `App::new` (main.rs lines 41-68): list the expanded base directory, take
the subdirectories as tabs, start on tab 0 with the content pane shown and
both popups closed, then populate the listing. -/
def App.new (home : Option String) (fs : Fs) : Except Unit App :=
  match expand_home home basePathRaw with
  | .error e => .error e
  | .ok path =>
    match fs path with
    | none => .error ()
    | some entries =>
      update_current_dir_contents home fs
        { tabs := (entries.filter (fun e => e.is_dir)).map (fun e => e.name),
          current_tab := 0,
          show_content := true,
          show_editor_selection := false,
          selected_editor := 0,
          current_dir_contents := [],
          selected_item := none,
          show_confirmation := false }

/-- The key-event `match` of the main loop (main.rs lines 287-344), arm by arm
in source order:
* `Char('q')` breaks the loop;
* `Char(c)` (unguarded) handles the digit keys and ignores every other
  character — because this arm precedes them, the source's guarded
  `Char('y')`/`Char('n')` arms (lines 324-341) can never match and are
  modelled by their absence (rustc reports them as unreachable patterns);
* `Up`/`Down` move the selection when the content pane is shown (the source's
  `len() - 1` is `usize` arithmetic that would wrap when the list is empty and
  an item is selected; `Nat` subtraction is used here, and no claim touches
  that corner);
* `Enter` with the content pane shown and a selection present assigns
  `show_confirmation = false` (sic — the literal assignment in the source);
* `Esc` assigns `show_editor_selection = false`;
* everything else does nothing. -/
def handleKey (home : Option String) (fs : Fs) (app : App) (key : KeyCode) :
    Except Unit StepResult :=
  match key with
  | .char c =>
    if c = 'q' then .ok { app := app, spawned := [], quit := true }
    else
      match toDigit10 c with
      | some digit =>
        if 0 < digit ∧ digit ≤ 9 then
          match switch_tab home fs app (digit - 1) with
          | .error e => .error e
          | .ok a => .ok { app := a, spawned := [], quit := false }
        else .ok { app := app, spawned := [], quit := false }
      | none => .ok { app := app, spawned := [], quit := false }
  | .up =>
    if app.show_content then
      match app.selected_item with
      | some selected =>
        if 0 < selected then
          .ok { app := { app with selected_item := some (selected - 1) },
                spawned := [], quit := false }
        else .ok { app := app, spawned := [], quit := false }
      | none =>
        .ok { app := { app with selected_item := some 0 }, spawned := [], quit := false }
    else .ok { app := app, spawned := [], quit := false }
  | .down =>
    if app.show_content then
      match app.selected_item with
      | some selected =>
        if selected < app.current_dir_contents.length - 1 then
          .ok { app := { app with selected_item := some (selected + 1) },
                spawned := [], quit := false }
        else .ok { app := app, spawned := [], quit := false }
      | none =>
        .ok { app := { app with selected_item := some 0 }, spawned := [], quit := false }
    else .ok { app := app, spawned := [], quit := false }
  | .enter =>
    if app.show_content && app.selected_item.isSome then
      .ok { app := { app with show_confirmation := false }, spawned := [], quit := false }
    else .ok { app := app, spawned := [], quit := false }
  | .esc =>
    .ok { app := { app with show_editor_selection := false }, spawned := [], quit := false }
  | .other => .ok { app := app, spawned := [], quit := false }

/-- The body of the source's `Char('y') if app.show_confirmation` arm
(main.rs lines 324-338), written out separately because the arm itself is
unreachable in the `match`: with a selection, spawn
`alacritty -e nvim <expanded base>/<active tab>/<entry name>`, then close the
confirmation popup. -/
def yArmBody (home : Option String) (app : App) : Except Unit StepResult :=
  match app.selected_item with
  | some selected =>
    let entry := app.current_dir_contents.getD selected { name := "", is_dir := false }
    match expand_home home basePathRaw with
    | .error e => .error e
    | .ok base =>
      .ok { app := { app with show_confirmation := false },
            spawned := [{ program := "alacritty",
                          args := ["-e", "nvim",
                                   pathJoin (pathJoin base (app.tabs.getD app.current_tab ""))
                                     entry.name] }],
            quit := false }
  | none =>
    .ok { app := { app with show_confirmation := false }, spawned := [], quit := false }

/-- Run a list of key events through the handler, threading the state,
collecting every spawned process, aborting on the first propagated error, and
stopping at a quit. -/
def runEvents (home : Option String) (fs : Fs) :
    App → List KeyCode → Except Unit (App × List SpawnedCmd)
  | app, [] => .ok (app, [])
  | app, k :: ks =>
    match handleKey home fs app k with
    | .error e => .error e
    | .ok r =>
      if r.quit then .ok (r.app, r.spawned)
      else
        match runEvents home fs r.app ks with
        | .error e => .error e
        | .ok (a, cs) => .ok (a, r.spawned ++ cs)

/-! ## Concrete test fixtures -/

/-- The base path expanded with home directory `"/h"`. -/
def tBase : String := "/h/Documents/rakesh/projects"

/-- A concrete filesystem: the base directory holds projects `alpha` and
`beta`, each with a single file. -/
def tFs : Fs := fun p =>
  if p = tBase then
    some [{ name := "alpha", is_dir := true }, { name := "beta", is_dir := true }]
  else if p = pathJoin tBase "alpha" then
    some [{ name := "main.rs", is_dir := false }]
  else if p = pathJoin tBase "beta" then
    some [{ name := "lib.rs", is_dir := false }]
  else none

/-- `tFs` with project `beta`'s directory unreadable. -/
def tFsNoBeta : Fs := fun p =>
  if p = tBase then
    some [{ name := "alpha", is_dir := true }, { name := "beta", is_dir := true }]
  else if p = pathJoin tBase "alpha" then
    some [{ name := "main.rs", is_dir := false }]
  else none

/-- The state produced by `App.new (some "/h") tFs`. -/
def wInit : App :=
  { tabs := ["alpha", "beta"],
    current_tab := 0,
    show_content := true,
    show_editor_selection := false,
    selected_editor := 0,
    current_dir_contents := [{ name := "main.rs", is_dir := false }],
    selected_item := none,
    show_confirmation := false }

/-- `wInit` with a two-entry listing and the cursor on entry 0. -/
def wSel : App :=
  { wInit with
    current_dir_contents := [{ name := "a", is_dir := true }, { name := "b", is_dir := false }],
    selected_item := some 0 }

/-- `wSel` with the confirmation popup open. -/
def wConfirm : App := { wSel with show_confirmation := true }

/-- `wInit` with an empty listing and no selection. -/
def wEmpty : App := { wInit with current_dir_contents := [] }

example : App.new (some "/h") tFs = .ok wInit := rfl
example : runEvents (some "/h") tFs wInit [.down, .enter, .char 'y', .esc] =
    .ok ({ wInit with selected_item := some 0 }, []) := rfl

/-! ## The comparator induces a total transitive order -/

/-- Characterisation of `entryLE`: directories stay before files, and entries
of equal kind are ordered by name. -/
theorem entryLE_iff (a b : DirEntry) :
    entryLE a b ↔
      (a.is_dir = true ∧ b.is_dir = false) ∨ (a.is_dir = b.is_dir ∧ a.name ≤ b.name) := by
  unfold entryLE cmpEntry
  cases ha : a.is_dir <;> cases hb : b.is_dir <;> simp [ha, hb] <;>
    · constructor
      · intro h
        rcases le_total a.name.data b.name.data with hle | hle
        · exact hle
        · exact le_of_eq (congrArg String.data (h hle))
      · intro hab hba
        exact String.ext (le_antisymm hab hba)

instance : IsTotal DirEntry entryLE := by
  constructor
  intro a b
  rw [entryLE_iff, entryLE_iff]
  cases ha : a.is_dir <;> cases hb : b.is_dir <;>
    rcases le_total a.name b.name with h | h <;> simp [h]

instance : IsTrans DirEntry entryLE := by
  constructor
  intro a b c hab hbc
  rw [entryLE_iff] at hab hbc ⊢
  rcases hab with ⟨ha, hb⟩ | ⟨hab, hnab⟩ <;> rcases hbc with ⟨hb2, hc⟩ | ⟨hbc, hnbc⟩
  · rw [hb] at hb2; exact absurd hb2 (by simp)
  · exact Or.inl ⟨ha, hbc ▸ hb⟩
  · exact Or.inl ⟨hab ▸ hb2, hc⟩
  · exact Or.inr ⟨hab.trans hbc, le_trans hnab hnbc⟩

/-! ## Frame lemmas -/

/-- A refresh of the listing changes nothing but `current_dir_contents`. -/
theorem update_frame (home : Option String) (fs : Fs) (app a' : App)
    (h : update_current_dir_contents home fs app = .ok a') :
    a' = { app with current_dir_contents := a'.current_dir_contents } := by
  unfold update_current_dir_contents at h
  split at h
  · injection h with h; subst h; rfl
  · split at h
    · exact Except.noConfusion h
    · split at h
      · exact Except.noConfusion h
      · injection h with h; subst h; rfl

/-- A successful tab switch leaves the three UI flags as they were. -/
theorem switch_tab_flags (home : Option String) (fs : Fs) (app a' : App) (i : Nat)
    (h : switch_tab home fs app i = .ok a') :
    a'.show_confirmation = app.show_confirmation ∧
    a'.show_editor_selection = app.show_editor_selection ∧
    a'.show_content = app.show_content := by
  unfold switch_tab at h
  split at h
  · have h2 := update_frame _ _ _ _ h
    rw [h2]
    exact ⟨rfl, rfl, rfl⟩
  · injection h with h; subst h; exact ⟨rfl, rfl, rfl⟩

/-- No key handler ever raises either popup flag, and none spawns a process:
from a state with both popups closed, any successfully handled key leaves both
closed and spawns nothing. -/
theorem handleKey_popup_flags (home : Option String) (fs : Fs) (app : App) (k : KeyCode)
    (r : StepResult) (h : handleKey home fs app k = .ok r)
    (h1 : app.show_confirmation = false) (h2 : app.show_editor_selection = false) :
    r.app.show_confirmation = false ∧ r.app.show_editor_selection = false ∧
    r.spawned = [] := by
  cases k with
  | char c =>
    simp only [handleKey] at h
    split at h
    · injection h with h; subst h; exact ⟨h1, h2, rfl⟩
    · split at h
      · split at h
        · split at h
          · exact Except.noConfusion h
          · rename_i a heq
            injection h with h; subst h
            obtain ⟨f1, f2, _⟩ := switch_tab_flags _ _ _ _ _ heq
            exact ⟨f1.trans h1, f2.trans h2, rfl⟩
        · injection h with h; subst h; exact ⟨h1, h2, rfl⟩
      · injection h with h; subst h; exact ⟨h1, h2, rfl⟩
  | up =>
    simp only [handleKey] at h
    split at h
    · split at h
      · split at h
        · injection h with h; subst h; exact ⟨h1, h2, rfl⟩
        · injection h with h; subst h; exact ⟨h1, h2, rfl⟩
      · injection h with h; subst h; exact ⟨h1, h2, rfl⟩
    · injection h with h; subst h; exact ⟨h1, h2, rfl⟩
  | down =>
    simp only [handleKey] at h
    split at h
    · split at h
      · split at h
        · injection h with h; subst h; exact ⟨h1, h2, rfl⟩
        · injection h with h; subst h; exact ⟨h1, h2, rfl⟩
      · injection h with h; subst h; exact ⟨h1, h2, rfl⟩
    · injection h with h; subst h; exact ⟨h1, h2, rfl⟩
  | enter =>
    simp only [handleKey] at h
    split at h
    · injection h with h; subst h; exact ⟨rfl, h2, rfl⟩
    · injection h with h; subst h; exact ⟨h1, h2, rfl⟩
  | esc =>
    simp only [handleKey] at h
    injection h with h; subst h; exact ⟨h1, rfl, rfl⟩
  | other =>
    simp only [handleKey] at h
    injection h with h; subst h; exact ⟨h1, h2, rfl⟩

/-- `handleKey_popup_flags` lifted to whole event traces. -/
theorem runEvents_popup_flags (home : Option String) (fs : Fs) (evs : List KeyCode) :
    ∀ (app a : App) (cs : List SpawnedCmd),
      app.show_confirmation = false → app.show_editor_selection = false →
      runEvents home fs app evs = .ok (a, cs) →
      a.show_confirmation = false ∧ a.show_editor_selection = false ∧ cs = [] := by
  induction evs with
  | nil =>
    intro app a cs h1 h2 h
    unfold runEvents at h
    injection h with h
    injection h with ha hc
    subst ha; subst hc
    exact ⟨h1, h2, rfl⟩
  | cons k ks ih =>
    intro app a cs h1 h2 h
    unfold runEvents at h
    split at h
    · exact Except.noConfusion h
    · rename_i r heq
      obtain ⟨f1, f2, f3⟩ := handleKey_popup_flags _ _ _ _ _ heq h1 h2
      split at h
      · injection h with h
        injection h with ha hc
        subst ha; subst hc
        exact ⟨f1, f2, f3⟩
      · split at h
        · exact Except.noConfusion h
        · rename_i a2 cs2 heq2
          injection h with h
          injection h with ha hc
          subst ha; subst hc
          obtain ⟨g1, g2, g3⟩ := ih r.app a2 cs2 f1 f2 heq2
          exact ⟨g1, g2, by rw [f3, g3]; rfl⟩

/-- The startup state has both popups closed. -/
theorem app_new_flags (home : Option String) (fs : Fs) (a0 : App)
    (h : App.new home fs = .ok a0) :
    a0.show_confirmation = false ∧ a0.show_editor_selection = false := by
  unfold App.new at h
  split at h
  · exact Except.noConfusion h
  · split at h
    · exact Except.noConfusion h
    · have h2 := update_frame _ _ _ _ h
      rw [h2]
      exact ⟨rfl, rfl⟩

/-! ## Claim theorems -/

/-- C1 (code_bug evidence): in a state with the content pane shown and an
entry selected, handling Enter executes the assignment
`app.show_confirmation = false`, so the confirmation popup stays invisible,
and no process is spawned — the source writes `false` where the spec (and the
widget legend `y/n: Confirm`) require `true`. -/
theorem c1_enter_leaves_confirmation_closed :
    handleKey (some "/h") tFs wSel .enter =
      .ok { app := { wSel with show_confirmation := false }, spawned := [], quit := false } ∧
    ({ wSel with show_confirmation := false } : App).show_confirmation = false ∧
    wSel.show_content = true ∧ wSel.selected_item = some 0 := by
  exact ⟨rfl, rfl, rfl, rfl⟩

/-- C2 (code_bug evidence): with an empty entry list and no selection,
handling Down — and likewise Up — sets the cursor to `Some 0`, violating the
invariant `0 ≤ i < len(entries)` (the list length is `0`), where the spec
requires the cursor to stay `None`. -/
theorem c2_empty_list_up_down_select_zero :
    handleKey (some "/h") tFs wEmpty .down =
      .ok { app := { wEmpty with selected_item := some 0 }, spawned := [], quit := false } ∧
    handleKey (some "/h") tFs wEmpty .up =
      .ok { app := { wEmpty with selected_item := some 0 }, spawned := [], quit := false } ∧
    wEmpty.current_dir_contents.length = 0 ∧ wEmpty.selected_item = none := by
  exact ⟨rfl, rfl, rfl, rfl⟩

/-- C3: starting from the startup state, after any successfully handled
sequence of key events both `show_confirmation` and `show_editor_selection`
are `false`, and no process has been spawned — no handler ever raises either
flag, so neither popup is ever displayed and the spawn branch never runs. -/
theorem c3_popups_never_shown (home : Option String) (fs : Fs) (evs : List KeyCode)
    (a0 a : App) (cs : List SpawnedCmd)
    (h0 : App.new home fs = .ok a0)
    (h : runEvents home fs a0 evs = .ok (a, cs)) :
    a.show_confirmation = false ∧ a.show_editor_selection = false ∧ cs = [] := by
  obtain ⟨h1, h2⟩ := app_new_flags _ _ _ h0
  exact runEvents_popup_flags home fs evs a0 a cs h1 h2 h

/-- Closed witness for `c3_popups_never_shown` at a concrete filesystem and
the trace Down, Enter, `y`, Esc. -/
theorem c3_popups_never_shown_witness :
    ({ wInit with selected_item := some 0 } : App).show_confirmation = false ∧
    ({ wInit with selected_item := some 0 } : App).show_editor_selection = false ∧
    ([] : List SpawnedCmd) = [] :=
  c3_popups_never_shown (some "/h") tFs [.down, .enter, .char 'y', .esc]
    wInit { wInit with selected_item := some 0 } [] rfl rfl

/-- C4: for every raw entry list, the produced listing is a permutation of it
in which every directory entry precedes every file entry and, within entries
of equal kind, names are in ascending (case-sensitive lexicographic) order —
regardless of the order the filesystem returned the entries in. -/
theorem c4_listing_sorted (l : List DirEntry) :
    (sortContents l).Perm l ∧
    (sortContents l).Pairwise (fun a b =>
      (b.is_dir = true → a.is_dir = true) ∧
      (a.is_dir = b.is_dir → a.name ≤ b.name)) := by
  constructor
  · exact List.perm_insertionSort _ _
  · refine List.Pairwise.imp ?_ (List.sorted_insertionSort entryLE l)
    intro a b hab
    rw [entryLE_iff] at hab
    rcases hab with ⟨ha, hb⟩ | ⟨hab, hle⟩
    · constructor
      · intro hb2; rw [hb] at hb2; exact absurd hb2 (by simp)
      · intro heq; rw [ha, hb] at heq; exact absurd heq (by simp)
    · exact ⟨fun hb2 => hab.trans hb2, fun _ => hle⟩

/-- C6 (code_bug evidence): with the confirmation popup open and entry 0 of
tab 0 selected, handling the `y` key matches the source's unguarded `Char(c)`
arm — which precedes the guarded `Char('y')` arm and makes it unreachable —
so nothing is spawned and the popup stays open; the unreachable arm's own body
(`yArmBody`) would have spawned `alacritty -e nvim` with final argument
`<expanded base>/<tabs[0]>/<entries[0].name>` and closed the popup, exactly as
the claim describes. -/
theorem c6_y_key_shadowed :
    handleKey (some "/h") tFs wConfirm (.char 'y') =
      .ok { app := wConfirm, spawned := [], quit := false } ∧
    wConfirm.show_confirmation = true ∧
    yArmBody (some "/h") wConfirm =
      .ok { app := { wConfirm with show_confirmation := false },
            spawned := [{ program := "alacritty",
                          args := ["-e", "nvim", "/h/Documents/rakesh/projects/alpha/a"] }],
            quit := false } := by
  exact ⟨rfl, rfl, rfl⟩

/-- Replacing the selection by its own value is the identity. -/
theorem selected_item_eta (app : App) (k : Nat) (h : app.selected_item = some k) :
    { app with selected_item := some k } = app := by
  rw [← h]

/-- C7: with the content pane shown and a non-empty entry list, Down moves the
cursor from `None` to index 0, increments it below the last index and stays at
the last index; Up moves from `None` to 0, decrements above 0 and stays at 0;
in every case the resulting index stays within `[0, len-1]`, nothing else
changes and nothing is spawned. -/
theorem c7_cursor_clamped (home : Option String) (fs : Fs) (app : App)
    (hc : app.show_content = true)
    (hn : 0 < app.current_dir_contents.length) :
    (app.selected_item = none →
      handleKey home fs app .down =
        .ok { app := { app with selected_item := some 0 }, spawned := [], quit := false } ∧
      handleKey home fs app .up =
        .ok { app := { app with selected_item := some 0 }, spawned := [], quit := false }) ∧
    (∀ k, app.selected_item = some k → k < app.current_dir_contents.length →
      handleKey home fs app .down =
        .ok { app := { app with
                         selected_item :=
                           some (if k = app.current_dir_contents.length - 1 then k
                                 else k + 1) },
              spawned := [], quit := false } ∧
      handleKey home fs app .up =
        .ok { app := { app with selected_item := some (if k = 0 then 0 else k - 1) },
              spawned := [], quit := false } ∧
      (if k = app.current_dir_contents.length - 1 then k else k + 1) <
        app.current_dir_contents.length ∧
      (if k = 0 then 0 else k - 1) < app.current_dir_contents.length) := by
  constructor
  · intro hsel
    constructor
    · simp only [handleKey, hc, if_true, hsel]
    · simp only [handleKey, hc, if_true, hsel]
  · intro k hsel hk
    refine ⟨?_, ?_, ?_, ?_⟩
    · by_cases hlast : k = app.current_dir_contents.length - 1
      · have hnl : ¬ (k < app.current_dir_contents.length - 1) := by omega
        rw [if_pos hlast, selected_item_eta app k hsel]
        simp [handleKey, hc, hsel, hnl]
      · have hl : k < app.current_dir_contents.length - 1 := by omega
        rw [if_neg hlast]
        simp [handleKey, hc, hsel, hl]
    · by_cases h0 : k = 0
      · subst h0
        rw [if_pos rfl, selected_item_eta app 0 hsel]
        simp [handleKey, hc, hsel]
      · have hp : 0 < k := Nat.pos_of_ne_zero h0
        rw [if_neg h0]
        simp [handleKey, hc, hsel, hp]
    · split <;> omega
    · split <;> omega

/-- Closed witness for `c7_cursor_clamped`: on a two-entry list with the
cursor at index 0, Down moves it to index 1. -/
theorem c7_cursor_clamped_witness :
    handleKey (some "/h") tFs wSel .down =
      .ok { app := { wSel with selected_item := some 1 }, spawned := [], quit := false } :=
  (((c7_cursor_clamped (some "/h") tFs wSel rfl (by decide)).2) 0 rfl (by decide)).1

/-- C8 counterexample: in a state where the confirmation popup is open
(`show_confirmation = true`, `show_editor_selection = false`), handling Esc
leaves `show_confirmation` `true` — the Esc arm only clears
`show_editor_selection`, so the open popup is not closed, contradicting the
claim. -/
theorem c8_esc_leaves_confirmation_open :
    handleKey (some "/h") tFs wConfirm .esc =
      .ok { app := { wConfirm with show_editor_selection := false },
            spawned := [], quit := false } ∧
    ({ wConfirm with show_editor_selection := false } : App).show_confirmation = true ∧
    wConfirm.show_confirmation = true ∧ wConfirm.show_editor_selection = false := by
  exact ⟨rfl, rfl, rfl, rfl⟩

/-- C8 amended: in every state, handling Esc assigns
`show_editor_selection = false` (closing the editor-choice popup when open)
and changes nothing else — tabs, current tab, entry list, cursor, content
flag and `show_confirmation` are untouched and no process is spawned; in
particular Esc does not close the confirmation popup. -/
theorem c8_esc_only_closes_editor_choice (home : Option String) (fs : Fs) (app : App) :
    handleKey home fs app .esc =
      .ok { app := { app with show_editor_selection := false },
            spawned := [], quit := false } ∧
    ({ app with show_editor_selection := false } : App).show_confirmation =
      app.show_confirmation ∧
    ({ app with show_editor_selection := false } : App).tabs = app.tabs ∧
    ({ app with show_editor_selection := false } : App).current_tab = app.current_tab ∧
    ({ app with show_editor_selection := false } : App).current_dir_contents =
      app.current_dir_contents ∧
    ({ app with show_editor_selection := false } : App).selected_item = app.selected_item ∧
    ({ app with show_editor_selection := false } : App).show_content = app.show_content := by
  exact ⟨rfl, rfl, rfl, rfl, rfl, rfl, rfl⟩

/-- C9: `expand_home` substitutes the home directory for a leading `~/` when
the home directory is known, passes every path without the shorthand through
unchanged, falls back to the unexpanded path when the home directory cannot be
determined, and always succeeds. -/
theorem c9_expand_home_cases (home : Option String) (p : String) :
    (∀ h, home = some h → startsWithTildeSlash p.data = true →
      expand_home home p = .ok (pathJoin h (String.mk (p.data.drop 2)))) ∧
    (startsWithTildeSlash p.data = false → expand_home home p = .ok p) ∧
    (home = none → expand_home home p = .ok p) ∧
    (∃ s, expand_home home p = .ok s) := by
  refine ⟨?_, ?_, ?_, ?_⟩
  · intro h hh hs
    subst hh
    simp only [expand_home, hs, if_true]
  · intro hs
    simp [expand_home, hs]
  · intro hh
    subst hh
    unfold expand_home
    split <;> rfl
  · unfold expand_home
    split
    · cases home
      · exact ⟨p, rfl⟩
      · exact ⟨_, rfl⟩
    · exact ⟨p, rfl⟩

/-- Closed witness for `c9_expand_home_cases`: `"~/projects"` expands under
home `"/home/u"`, stays unexpanded without a home directory, and `"/tmp/x"`
passes through unchanged. -/
theorem c9_expand_home_cases_witness :
    expand_home (some "/home/u") "~/projects" = .ok "/home/u/projects" ∧
    expand_home none "~/projects" = .ok "~/projects" ∧
    expand_home (some "/home/u") "/tmp/x" = .ok "/tmp/x" :=
  ⟨(c9_expand_home_cases (some "/home/u") "~/projects").1 "/home/u" rfl rfl,
   (c9_expand_home_cases none "~/projects").2.2.1 rfl,
   (c9_expand_home_cases (some "/home/u") "/tmp/x").2.1 rfl⟩

/-- For each in-range tab index, the digit key `i+1` is not the quit key and
decodes to the digit `i+1`. -/
theorem digitChar_facts (i : Nat) (h : i < 9) :
    toDigit10 (digitChar (i + 1)) = some (i + 1) ∧ digitChar (i + 1) ≠ 'q' := by
  interval_cases i <;> exact ⟨by decide, by decide⟩

/-- Handling the digit key `i+1` is exactly a `switch_tab` to index `i`. -/
theorem handleKey_digit_eq (home : Option String) (fs : Fs) (app : App) (i : Nat)
    (h9 : i < 9) :
    handleKey home fs app (.char (digitChar (i + 1))) =
      match switch_tab home fs app i with
      | .error e => .error e
      | .ok a => .ok { app := a, spawned := [], quit := false } := by
  obtain ⟨hd, hq⟩ := digitChar_facts i h9
  simp only [handleKey, if_neg hq, hd, Nat.add_sub_cancel]
  rw [if_pos ⟨Nat.succ_pos i, by omega⟩]

/-- An in-range tab switch whose directory read succeeds installs exactly the
sorted listing, moves to the tab and clears the cursor. -/
theorem switch_tab_ok (home : Option String) (fs : Fs) (app : App) (i : Nat)
    (entries : List DirEntry) (base : String)
    (hb : expand_home home basePathRaw = .ok base)
    (hi : i < app.tabs.length)
    (hfs : fs (pathJoin base (app.tabs.getD i "")) = some entries) :
    switch_tab home fs app i =
      .ok { app with
              current_tab := i,
              selected_item := none,
              current_dir_contents := sortContents entries } := by
  have hne : app.tabs.isEmpty = false := by
    cases htabs : app.tabs
    · rw [htabs] at hi; exact absurd hi (by simp)
    · rfl
  have hfs2 : fs (pathJoin base (app.tabs[i]?.getD "")) = some entries := by
    simpa using hfs
  unfold switch_tab
  rw [if_pos hi]
  unfold update_current_dir_contents
  simp [hne, hb, hfs2]

/-- C5: for every in-range tab index `i` (the digit keys cover indices
`0`-`8`) whose project directory is readable, handling the digit key `i+1`
sets `current_tab` to `i`, replaces `current_dir_contents` wholesale with
exactly the immediate entries of project `i`'s directory (as the sorted
listing, a permutation of those entries), resets `selected_item` to `none`,
and spawns nothing. -/
theorem c5_digit_tab_switch (home : Option String) (fs : Fs) (app : App) (i : Nat)
    (entries : List DirEntry) (base : String)
    (hb : expand_home home basePathRaw = .ok base)
    (hi : i < app.tabs.length) (h9 : i < 9)
    (hfs : fs (pathJoin base (app.tabs.getD i "")) = some entries) :
    handleKey home fs app (.char (digitChar (i + 1))) =
      .ok { app := { app with
                       current_tab := i,
                       selected_item := none,
                       current_dir_contents := sortContents entries },
            spawned := [], quit := false } ∧
    (sortContents entries).Perm entries := by
  constructor
  · rw [handleKey_digit_eq home fs app i h9,
        switch_tab_ok home fs app i entries base hb hi hfs]
  · exact List.perm_insertionSort _ _

/-- Closed witness for `c5_digit_tab_switch`: pressing `2` on `wInit` switches
to project `beta` and installs its listing. -/
theorem c5_digit_tab_switch_witness :
    handleKey (some "/h") tFs wInit (.char (digitChar 2)) =
      .ok { app := { wInit with
                       current_tab := 1,
                       selected_item := none,
                       current_dir_contents :=
                         sortContents [{ name := "lib.rs", is_dir := false }] },
            spawned := [], quit := false } ∧
    (sortContents [{ name := "lib.rs", is_dir := false }]).Perm
      [{ name := "lib.rs", is_dir := false }] :=
  c5_digit_tab_switch (some "/h") tFs wInit 1 [{ name := "lib.rs", is_dir := false }]
    tBase rfl (by decide) (by decide) rfl

/-- C10: when reading project `i`'s directory fails during a tab switch, the
refresh returns the error without installing any entry list, `switch_tab`
forwards that error, and the whole run of the event loop unwinds with the
error no matter what events follow — the failing project is not skipped. -/
theorem c10_read_error_unwinds (home : Option String) (fs : Fs) (app : App) (i : Nat)
    (base : String) (evs : List KeyCode)
    (hb : expand_home home basePathRaw = .ok base)
    (hi : i < app.tabs.length) (h9 : i < 9)
    (hfail : fs (pathJoin base (app.tabs.getD i "")) = none) :
    update_current_dir_contents home fs
        { app with current_tab := i, selected_item := none } = .error () ∧
    switch_tab home fs app i = .error () ∧
    runEvents home fs app (KeyCode.char (digitChar (i + 1)) :: evs) = .error () := by
  have hne : app.tabs.isEmpty = false := by
    cases htabs : app.tabs
    · rw [htabs] at hi; exact absurd hi (by simp)
    · rfl
  have hfail2 : fs (pathJoin base (app.tabs[i]?.getD "")) = none := by
    simpa using hfail
  have hupd : update_current_dir_contents home fs
      { app with current_tab := i, selected_item := none } = .error () := by
    unfold update_current_dir_contents
    simp [hne, hb, hfail2]
  have hsw : switch_tab home fs app i = .error () := by
    unfold switch_tab
    rw [if_pos hi]
    exact hupd
  refine ⟨hupd, hsw, ?_⟩
  unfold runEvents
  rw [handleKey_digit_eq home fs app i h9, hsw]

/-- Closed witness for `c10_read_error_unwinds`: with project `beta`'s
directory unreadable, pressing `2` aborts the run. -/
theorem c10_read_error_unwinds_witness :
    update_current_dir_contents (some "/h") tFsNoBeta
        { wInit with current_tab := 1, selected_item := none } = .error () ∧
    switch_tab (some "/h") tFsNoBeta wInit 1 = .error () ∧
    runEvents (some "/h") tFsNoBeta wInit [KeyCode.char (digitChar 2)] = .error () :=
  c10_read_error_unwinds (some "/h") tFsNoBeta wInit 1 tBase [] rfl (by decide)
    (by decide) rfl
